import Mathlib

/-!
Verification of `ssh.py`, a bounded-concurrency parallel SSH command runner.
The Python source is shallowly embedded: pure fragments become Lean
functions, the scheduler becomes a small-step transition system, and the
file-system effects of a run become explicit lists of (path, content) writes.
-/

deriving instance DecidableEq for Except

namespace WideSsh

/-! ## String helpers (models of Python's `in`, `str.lower`, `os.path.join`) -/

/-- Does the character list start with the given pattern? -/
def charsStartWith : List Char → List Char → Bool
  | _, [] => true
  | [], _ :: _ => false
  | a :: as, b :: bs => a == b && charsStartWith as bs

/-- Does the character list contain the pattern as a contiguous run? -/
def charsContain (pat : List Char) : List Char → Bool
  | [] => charsStartWith [] pat
  | a :: as => charsStartWith (a :: as) pat || charsContain pat as

/-- Model of Python's substring test `pat in hay`. -/
def strContains (hay pat : String) : Bool :=
  charsContain pat.data hay.data

/-- Model of Python's `str.lower()` (ASCII-faithful). -/
def strLower (s : String) : String :=
  ⟨s.data.map Char.toLower⟩

/-- Drop leading whitespace characters. -/
def dropLeadingWs : List Char → List Char
  | [] => []
  | c :: cs => if c.isWhitespace then dropLeadingWs cs else c :: cs

/-- Model of Python's `str.strip()`: drop whitespace from both ends. -/
def strStrip (s : String) : String :=
  ⟨(dropLeadingWs ((dropLeadingWs s.data).reverse)).reverse⟩

/-- Model of Python's `str.startswith(pat)`. -/
def strStartsWith (s pat : String) : Bool :=
  charsStartWith s.data pat.data

/-- Model of `os.path.join` for a directory and a file name. -/
def pathJoin (dir name : String) : String :=
  dir ++ "/" ++ name

/-- Model of `os.path.abspath` relative to a current working directory:
an absolute path is unchanged, a relative one is joined onto `cwd`. -/
def absPath (cwd s : String) : String :=
  if strStartsWith s "/" then s else pathJoin cwd s

/-! ## Error classification (src/ssh.py lines 135-147)

A connection-level error carries the exception text and whether the
exception is an `asyncio.TimeoutError`. -/

structure ConnError where
  isTimeout : Bool
  message : String
deriving DecidableEq

/-- The `unreachable` boolean computed in the `except` branch of
`execute_on_host` (lines 139-147).  Note that `"Connection refused"` is
tested against the raw message while the remaining patterns are tested
against the lowercased message. -/
def isUnreachableError (e : ConnError) : Bool :=
  strContains e.message "Connection refused" ||
  strContains (strLower e.message) "timed out" ||
  strContains (strLower e.message) "no route to host" ||
  strContains (strLower e.message) "network unreachable" ||
  strContains (strLower e.message) "could not resolve" ||
  strContains (strLower e.message) "connection failed" ||
  e.isTimeout

/-- The classifier the spec describes: a case-insensitive substring match
of the error text against the whole fixed pattern set, or a timeout
condition.  (Stated from the spec's words, to be compared with
`isUnreachableError`, which is stated from the code.) -/
def specCiMatch (e : ConnError) : Bool :=
  (["connection refused", "timed out", "no route to host",
    "network unreachable", "could not resolve", "connection failed"].any
    (fun pat => strContains (strLower e.message) pat)) ||
  e.isTimeout

/-! ## Output path derivation (src/ssh.py lines 106-120) -/

/-- Base file name for a host: `host` or `host_timestamp` (lines 107-112). -/
def baseFileName (host timestamp : String) (useTimestamp : Bool) : String :=
  if useTimestamp then host ++ "_" ++ timestamp else host

/-- The stdout file path (lines 115-119). -/
def stdoutFile (stdoutDir host timestamp : String)
    (useTimestamp useSuffixes : Bool) : String :=
  if useSuffixes then
    pathJoin stdoutDir (baseFileName host timestamp useTimestamp ++ ".out")
  else
    pathJoin stdoutDir (baseFileName host timestamp useTimestamp)

/-- The stderr file path (lines 115-120, also recomputed at lines 154-162). -/
def stderrFile (stderrDir host timestamp : String)
    (useTimestamp useSuffixes : Bool) : String :=
  if useSuffixes then
    pathJoin stderrDir (baseFileName host timestamp useTimestamp ++ ".err")
  else
    pathJoin stderrDir (baseFileName host timestamp useTimestamp)

/-! ## Session runner (src/ssh.py lines 86-167)

`execute_on_host` is embedded as a pure function of the per-host
parameters and of the transport's answer for that host.  Its effects
are made explicit: the outcome triple `(host, success, unreachable)`
it returns, and the list of file writes it performs, in order. -/

/-- The per-host parameters that influence outcome and writes
(username, password, command, timeout and debug only affect the
transport and console, which the transport answer already abstracts). -/
structure HostParams where
  host : String
  stdoutDir : String
  stderrDir : String
  timestamp : String
  useTimestamp : Bool
  useSuffixes : Bool
deriving DecidableEq

/-- The transport's answer for one host: either a completed remote run
(`conn.run` returned captured stdout, stderr and an exit status), or a
connection-level error caught by the `except` clause at line 135. -/
inductive SessionResult where
  | ok (stdout stderr : String) (exitStatus : Int)
  | connError (e : ConnError)
deriving DecidableEq

/-- What one `execute_on_host` call produced: the returned triple
`(host, success, unreachable)` and the file writes, in order. -/
structure HostRun where
  outcome : String × Bool × Bool
  writes : List (String × String)
deriving DecidableEq

/-- Embedding of `execute_on_host` (lines 86-167). -/
def execute_on_host (p : HostParams) : SessionResult → HostRun
  | .ok out err code =>
      { outcome := (p.host, code == 0, false)
        writes :=
          [(stdoutFile p.stdoutDir p.host p.timestamp p.useTimestamp p.useSuffixes, out),
           (stderrFile p.stderrDir p.host p.timestamp p.useTimestamp p.useSuffixes, err)] }
  | .connError e =>
      { outcome := (p.host, false, isUnreachableError e)
        writes :=
          [(stderrFile p.stderrDir p.host p.timestamp p.useTimestamp p.useSuffixes,
            "Connection error: " ++ e.message)] }

/-- The spec's three-way outcome status. -/
inductive Status where
  | Success
  | Failed
  | Unreachable
deriving DecidableEq

/-- Status of a returned `(host, success, unreachable)` triple, as the
aggregation in `main_async` reads it (lines 262-264). -/
def statusOf (r : String × Bool × Bool) : Status :=
  if r.2.1 then .Success else if r.2.2 then .Unreachable else .Failed

/-! ## Fan-out and fan-in (src/ssh.py lines 169-190 and 225-264)

`asyncio.gather(..., return_exceptions=True)` yields exactly one entry
per task, in task (submission) order: an outcome triple, or the
exception object when the task faulted internally. -/

/-- How one host's task behaves: a transport answer fed to
`execute_on_host`, or an internal fault escaping it. -/
inductive TaskBehavior where
  | session (r : SessionResult)
  | fault (msg : String)
deriving DecidableEq

/-- One entry of the list `asyncio.gather` returns. -/
inductive TaskResult where
  | value (r : String × Bool × Bool)
  | exn (msg : String)
deriving DecidableEq

/-- The run-wide configuration feeding each host's parameters
(lines 172-177). -/
structure RunConfig where
  stdoutDir : String
  stderrDir : String
  timestamp : String
  useTimestamp : Bool
  useSuffixes : Bool
deriving DecidableEq

/-- The per-host parameters built in `run_parallel` (lines 172-177). -/
def mkParams (cfg : RunConfig) (host : String) : HostParams :=
  { host := host
    stdoutDir := cfg.stdoutDir
    stderrDir := cfg.stderrDir
    timestamp := cfg.timestamp
    useTimestamp := cfg.useTimestamp
    useSuffixes := cfg.useSuffixes }

/-- One gather entry for one host (lines 182-190 with
`return_exceptions=True`). -/
def runTask (cfg : RunConfig) (host : String) : TaskBehavior → TaskResult
  | .session r => .value (execute_on_host (mkParams cfg host) r).outcome
  | .fault m => .exn m

/-- The list `run_parallel` returns: one entry per host, in submission
order (the order of `tasks`, which `asyncio.gather` preserves). -/
def runResults (cfg : RunConfig) (hosts : List String)
    (beh : String → TaskBehavior) : List TaskResult :=
  hosts.map (fun h => runTask cfg h (beh h))

/-- The `valid_results` conversion (lines 225-231): an exception becomes
`(None, False, False)`, modelled with an optional host. -/
def validResult : TaskResult → Option String × Bool × Bool
  | .value (h, s, u) => (some h, s, u)
  | .exn _ => (none, false, false)

/-- Does a gather entry count towards `successful` (line 262)? -/
def countsAsSuccess (r : TaskResult) : Bool :=
  (validResult r).2.1

/-- Does a gather entry count towards `failed` (line 263)? -/
def countsAsFailed (r : TaskResult) : Bool :=
  !(validResult r).2.1 && !(validResult r).2.2

/-- Does a gather entry contribute to `unreachable_hosts` (line 234)?
Python keeps an entry when `host and is_unreachable`, i.e. the host is
truthy (non-`None` and non-empty) and the flag is set. -/
def countsAsUnreachable (r : TaskResult) : Bool :=
  match validResult r with
  | (some h, _, u) => h != "" && u
  | (none, _, _) => false

/-- The list `unreachable_hosts` built at line 234, in gather order. -/
def unreachableHosts (rs : List TaskResult) : List String :=
  rs.filterMap (fun r =>
    match validResult r with
    | (some h, _, u) => if h != "" && u then some h else none
    | (none, _, _) => none)

/-- The `successful` count (line 262). -/
def successfulCount (rs : List TaskResult) : Nat :=
  rs.countP countsAsSuccess

/-- The `failed` count (line 263). -/
def failedCount (rs : List TaskResult) : Nat :=
  rs.countP countsAsFailed

/-- The `unreachable` count (line 264). -/
def unreachableCount (rs : List TaskResult) : Nat :=
  (unreachableHosts rs).length

/-! ## Persistence of the unreachable list (src/ssh.py lines 236-241) -/

/-- Contents written to `unreachable.hosts`: one host per line. -/
def unreachableFileContent (rs : List TaskResult) : String :=
  String.join ((unreachableHosts rs).map (fun h => h ++ "\n"))

/-- Embedding of lines 236-241: when any unreachable host exists the file
`os.path.join(args.outdir, "unreachable.hosts")` is written; with
`args.outdir = None` that join raises `TypeError`.  Returns the optional
(path, content) write, or the raised error. -/
def persistUnreachable (outdir : Option String) (rs : List TaskResult) :
    Except String (Option (String × String)) :=
  if (unreachableHosts rs).isEmpty then .ok none
  else
    match outdir with
    | none => .error "TypeError: join of None outdir"
    | some d => .ok (some (pathJoin d "unreachable.hosts", unreachableFileContent rs))

/-- The path the summary prints at line 272 when `unreachable > 0`:
`os.path.abspath(os.path.join(args.stdout_dir, 'unreachable.hosts'))`. -/
def summaryUnreachablePath (cwd stdoutDir : String) : String :=
  absPath cwd (pathJoin stdoutDir "unreachable.hosts")

/-! ## Target list loader (src/ssh.py lines 63-84) -/

/-- The comprehension filter at line 70: the raw line strips to something
non-empty and does not start (unstripped) with `#`. -/
def keepLine (l : String) : Bool :=
  strStrip l != "" && !strStartsWith l "#"

/-- The stripped kept lines, in file order (lines 68-71 before
`dict.fromkeys`); `original_count` at lines 74-77 is its length. -/
def processedLines (lines : List String) : List String :=
  (lines.filter keepLine).map strStrip

/-- Model of `dict.fromkeys` insertion: walk the list keeping the first
occurrence of each element, tracking the keys already seen. -/
def dedupFromKeys (seen : List String) : List String → List String
  | [] => []
  | x :: xs =>
      if x ∈ seen then dedupFromKeys seen xs
      else x :: dedupFromKeys (x :: seen) xs

/-- Embedding of `read_hosts` on the file's lines (lines 63-81). -/
def read_hosts (lines : List String) : List String :=
  dedupFromKeys [] (processedLines lines)

/-- The duplicate count printed at line 79, reported only when positive. -/
def reportedDuplicates (lines : List String) : Option Nat :=
  if (read_hosts lines).length < (processedLines lines).length then
    some ((processedLines lines).length - (read_hosts lines).length)
  else none

/-! ## CLI directory resolution (src/ssh.py lines 39-46) -/

/-- Value of `args.stdout_dir` after the `outdir` derivation at lines 40-42. -/
def resolvedStdoutDir (outdir stdoutDir : Option String) : Option String :=
  match outdir with
  | some o => some (stdoutDir.getD (pathJoin o "out"))
  | none => stdoutDir

/-- Value of `args.stderr_dir` after the `outdir` derivation at lines 40-42. -/
def resolvedStderrDir (outdir stderrDir : Option String) : Option String :=
  match outdir with
  | some o => some (stderrDir.getD (pathJoin o "err"))
  | none => stderrDir

/-- The validation at lines 44-46: both directories must be present. -/
def dirsValid (outdir stdoutDir stderrDir : Option String) : Bool :=
  (resolvedStdoutDir outdir stdoutDir).isSome &&
  (resolvedStderrDir outdir stderrDir).isSome

/-! ## Process exit (src/ssh.py lines 82-84, 203-206, 236-241)

`sys.exit(1)` on a missing hostfile or an empty target list; an uncaught
exception (the `TypeError` from joining a `None` outdir) also terminates
the process with a non-zero status, modelled as `crashed`. -/

inductive RunExit where
  | exited (code : Nat)
  | crashed (msg : String)
deriving DecidableEq

/-- Exit behaviour of `main_async` as a function of the hostfile contents
(`none` = file missing), the configured `outdir`, the run configuration
and each host's task behaviour. -/
def mainExit (hostfile : Option (List String)) (outdir : Option String)
    (cfg : RunConfig) (beh : String → TaskBehavior) : RunExit :=
  match hostfile with
  | none => .exited 1
  | some lines =>
      let hosts := read_hosts lines
      if hosts.isEmpty then .exited 1
      else
        match persistUnreachable outdir (runResults cfg hosts beh) with
        | .error m => .crashed m
        | .ok _ => .exited 0

/-! ## Scheduler (src/ssh.py lines 179-190)

`run_parallel` guards each `execute_on_host` with
`async with asyncio.Semaphore(args.parallelism)`.  The semaphore
discipline is modelled as a small-step transition system: a task
acquires the semaphore (entering its session) only when the counter is
positive, and releases it on completion.  The `log` records task
indices in the order their sessions completed. -/

inductive TaskState where
  | pending
  | running
  | done
deriving DecidableEq, BEq

structure SchedState where
  sem : Nat
  tasks : List TaskState
  log : List Nat
deriving DecidableEq

/-- Initial scheduler state: semaphore at `parallelism`, every task
pending, nothing completed. -/
def initState (parallelism n : Nat) : SchedState :=
  ⟨parallelism, List.replicate n .pending, []⟩

/-- Number of tasks currently inside their session. -/
def runningCount (s : SchedState) : Nat :=
  s.tasks.countP (fun t => t == .running)

/-- One scheduler step: a pending task acquires the semaphore when the
counter is positive, or a running task finishes and releases it. -/
inductive SchedStep : SchedState → SchedState → Prop where
  | acquire (s : SchedState) (i : Nat)
      (hp : s.tasks[i]? = some .pending) (hs : 0 < s.sem) :
      SchedStep s ⟨s.sem - 1, s.tasks.set i .running, s.log⟩
  | release (s : SchedState) (i : Nat)
      (hr : s.tasks[i]? = some .running) :
      SchedStep s ⟨s.sem + 1, s.tasks.set i .done, s.log ++ [i]⟩

/-- The hosts in the order their sessions completed, read off the log. -/
def completionOrder (hosts : List String) (s : SchedState) : List String :=
  s.log.filterMap (fun i => hosts[i]?)

/-! ## Helper lemmas -/

theorem mem_dedupFromKeys (l : List String) :
    ∀ (seen : List String) (x : String),
      x ∈ dedupFromKeys seen l ↔ x ∈ l ∧ x ∉ seen := by
  induction l with
  | nil => intro seen x; simp [dedupFromKeys]
  | cons y ys ih =>
      intro seen x
      by_cases hy : y ∈ seen
      · simp only [dedupFromKeys, if_pos hy, ih]
        constructor
        · rintro ⟨hx, hns⟩
          exact ⟨List.mem_cons_of_mem _ hx, hns⟩
        · rintro ⟨hx, hns⟩
          rcases List.mem_cons.mp hx with rfl | hx
          · exact absurd hy hns
          · exact ⟨hx, hns⟩
      · simp only [dedupFromKeys, if_neg hy, List.mem_cons, ih, List.mem_cons]
        constructor
        · rintro (rfl | ⟨hx, hns⟩)
          · exact ⟨Or.inl rfl, hy⟩
          · exact ⟨Or.inr hx, fun hs => hns (Or.inr hs)⟩
        · rintro ⟨rfl | hx, hns⟩
          · exact Or.inl rfl
          · by_cases hxy : x = y
            · exact Or.inl hxy
            · exact Or.inr ⟨hx, fun hs => hns (hs.resolve_left hxy)⟩

theorem nodup_dedupFromKeys (l : List String) :
    ∀ seen : List String, (dedupFromKeys seen l).Nodup := by
  induction l with
  | nil => intro seen; simp [dedupFromKeys]
  | cons y ys ih =>
      intro seen
      by_cases hy : y ∈ seen
      · simpa only [dedupFromKeys, if_pos hy] using ih seen
      · simp only [dedupFromKeys, if_neg hy, List.nodup_cons]
        refine ⟨fun hmem => ?_, ih _⟩
        exact ((mem_dedupFromKeys ys _ y).mp hmem).2 (List.mem_cons_self _ _)

theorem dedupFromKeys_seen_cons (a : String) (l : List String) :
    ∀ seen seenA : List String, (∀ y, y ∈ seenA ↔ y = a ∨ y ∈ seen) →
      dedupFromKeys seenA l = dedupFromKeys seen (l.filter (fun y => y != a)) := by
  induction l with
  | nil => intro seen seenA _; rfl
  | cons x xs ih =>
      intro seen seenA hA
      by_cases hxa : x = a
      · subst hxa
        have hx : x ∈ seenA := (hA x).mpr (Or.inl rfl)
        simp only [dedupFromKeys, if_pos hx, List.filter_cons, bne_self_eq_false,
          Bool.false_eq_true, if_false]
        exact ih seen seenA hA
      · have hkeep : (x != a) = true := bne_iff_ne.mpr hxa
        by_cases hxs : x ∈ seen
        · have hx : x ∈ seenA := (hA x).mpr (Or.inr hxs)
          simp only [dedupFromKeys, if_pos hx, List.filter_cons, hkeep, if_true,
            if_pos hxs]
          exact ih seen seenA hA
        · have hx : x ∉ seenA := fun hmem =>
            ((hA x).mp hmem).elim hxa hxs
          simp only [dedupFromKeys, if_neg hx, List.filter_cons, hkeep, if_true,
            if_neg hxs]
          refine congrArg (x :: ·) (ih (x :: seen) (x :: seenA) fun y => ?_)
          simp only [List.mem_cons, hA y]
          tauto

theorem dedupFromKeys_first (x : String) (xs : List String) :
    dedupFromKeys [] (x :: xs) =
      x :: dedupFromKeys [] (xs.filter (fun y => y != x)) := by
  simp only [dedupFromKeys, List.not_mem_nil, if_neg (List.not_mem_nil x)]
  refine congrArg (x :: ·) (dedupFromKeys_seen_cons x xs [] [x] fun y => ?_)
  simp

theorem mem_read_hosts (lines : List String) (x : String) :
    x ∈ read_hosts lines ↔ x ∈ processedLines lines := by
  simp [read_hosts, mem_dedupFromKeys]

theorem keepLine_strip_ne_empty {l : String} (h : keepLine l = true) :
    strStrip l ≠ "" := by
  simp only [keepLine, Bool.and_eq_true, bne_iff_ne] at h
  exact h.1

theorem mem_read_hosts_ne_empty {lines : List String} {x : String}
    (h : x ∈ read_hosts lines) : x ≠ "" := by
  have hp : x ∈ processedLines lines := (mem_read_hosts lines x).mp h
  rcases List.mem_map.mp hp with ⟨l, hl, rfl⟩
  exact keepLine_strip_ne_empty (List.of_mem_filter hl)

/-- A well-formed gather entry: a value entry carries a non-empty host
and is never simultaneously successful and unreachable (as every
`execute_on_host` outcome is). -/
def TaskEntryOk : TaskResult → Prop
  | .value (h, s, u) => h ≠ "" ∧ ¬(s = true ∧ u = true)
  | .exn _ => True

theorem exactly_one_class {r : TaskResult} (hok : TaskEntryOk r) :
    (countsAsSuccess r).toNat + (countsAsFailed r).toNat +
      (countsAsUnreachable r).toNat = 1 := by
  cases r with
  | exn m => rfl
  | value t =>
      obtain ⟨h, s, u⟩ := t
      obtain ⟨hne, hsu⟩ := hok
      have hb : (h != "") = true := bne_iff_ne.mpr hne
      cases s <;> cases u <;>
        simp [countsAsSuccess, countsAsFailed, countsAsUnreachable,
          validResult, hb] at hsu ⊢

theorem runResults_entry_ok (cfg : RunConfig) (hosts : List String)
    (beh : String → TaskBehavior) (hne : ∀ h ∈ hosts, h ≠ "") :
    ∀ r ∈ runResults cfg hosts beh, TaskEntryOk r := by
  intro r hr
  rcases List.mem_map.mp hr with ⟨h, hh, rfl⟩
  have hne' := hne h hh
  cases hb : beh h with
  | fault m => simp [runTask, TaskEntryOk]
  | session sr =>
      cases sr with
      | ok out err code =>
          simp [runTask, execute_on_host, TaskEntryOk, mkParams, hne']
      | connError e =>
          simp [runTask, execute_on_host, TaskEntryOk, mkParams, hne']

theorem unreachableHosts_cons_exn (m : String) (rs : List TaskResult) :
    unreachableHosts (.exn m :: rs) = unreachableHosts rs := rfl

theorem unreachableHosts_cons_value (h : String) (s u : Bool)
    (rs : List TaskResult) :
    unreachableHosts (.value (h, s, u) :: rs) =
      if h != "" && u then h :: unreachableHosts rs
      else unreachableHosts rs := by
  cases u with
  | false => simp [unreachableHosts, List.filterMap_cons, validResult]
  | true =>
      by_cases hh : h = ""
      · subst hh; simp [unreachableHosts, List.filterMap_cons, validResult]
      · simp [unreachableHosts, List.filterMap_cons, validResult, hh]

theorem unreachableCount_cons (r : TaskResult) (rs : List TaskResult) :
    unreachableCount (r :: rs) =
      (countsAsUnreachable r).toNat + unreachableCount rs := by
  cases r with
  | exn m => simp [unreachableCount, unreachableHosts_cons_exn,
      countsAsUnreachable, validResult]
  | value t =>
      obtain ⟨h, s, u⟩ := t
      rw [unreachableCount, unreachableHosts_cons_value]
      cases hbu : (h != "" && u) <;>
        simp [countsAsUnreachable, validResult, hbu, unreachableCount]
      omega

theorem counts_sum (rs : List TaskResult) (hok : ∀ r ∈ rs, TaskEntryOk r) :
    successfulCount rs + failedCount rs + unreachableCount rs = rs.length := by
  induction rs with
  | nil => rfl
  | cons r rs ih =>
      have h1 := exactly_one_class (hok r (List.mem_cons_self r rs))
      have h2 := ih (fun x hx => hok x (List.mem_cons_of_mem _ hx))
      have hift : ∀ b : Bool, (if b = true then 1 else 0) = b.toNat := by
        intro b; cases b <;> rfl
      simp only [successfulCount, failedCount, List.countP_cons, hift,
        unreachableCount_cons, List.length_cons] at *
      omega

/-! ## Scheduler lemmas -/

theorem countP_set_eq {α : Type} (l : List α) (i : Nat) (a b : α)
    (p : α → Bool) (h : l[i]? = some a) :
    (l.set i b).countP p + (if p a then 1 else 0) =
      l.countP p + (if p b then 1 else 0) := by
  induction l generalizing i with
  | nil => simp at h
  | cons x xs ih =>
      cases i with
      | zero =>
          simp only [List.getElem?_cons_zero, Option.some.injEq] at h
          subst h
          simp only [List.set_cons_zero, List.countP_cons]
          omega
      | succ n =>
          simp only [List.getElem?_cons_succ] at h
          have := ih n h
          simp only [List.set_cons_succ, List.countP_cons]
          omega

theorem runningCount_initState (N n : Nat) :
    runningCount (initState N n) = 0 := by
  simp only [runningCount, initState]
  induction n with
  | zero => rfl
  | succ m ih =>
      simp [List.replicate_succ, List.countP_cons, ih,
        show (TaskState.pending == TaskState.running) = false from rfl]

theorem sched_invariant (N n : Nat) (s : SchedState)
    (h : Relation.ReflTransGen SchedStep (initState N n) s) :
    runningCount s + s.sem = N := by
  induction h with
  | refl =>
      have h0 := runningCount_initState N n
      have h1 : (initState N n).sem = N := rfl
      omega
  | @tail t s' hab hstep ih =>
      cases hstep with
      | acquire i hp hs =>
          have hc := countP_set_eq t.tasks i .pending .running
            (fun x => x == TaskState.running) hp
          simp only [show (TaskState.pending == TaskState.running) = false from rfl,
            show (TaskState.running == TaskState.running) = true from rfl,
            if_true, Bool.false_eq_true, if_false] at hc
          simp only [runningCount] at *
          omega
      | release i hr =>
          have hc := countP_set_eq t.tasks i .running .done
            (fun x => x == TaskState.running) hr
          simp only [show (TaskState.running == TaskState.running) = true from rfl,
            show (TaskState.done == TaskState.running) = false from rfl,
            if_true, Bool.false_eq_true, if_false] at hc
          simp only [runningCount] at *
          omega

/-- Whether one host's task behaviour ends in an unreachable
classification. -/
def behUnreachable (b : TaskBehavior) : Bool :=
  match b with
  | .session (.connError e) => isUnreachableError e
  | _ => false

theorem runResults_cons (cfg : RunConfig) (h : String) (hs : List String)
    (beh : String → TaskBehavior) :
    runResults cfg (h :: hs) beh =
      runTask cfg h (beh h) :: runResults cfg hs beh := rfl

theorem unreachableHosts_runResults (cfg : RunConfig)
    (beh : String → TaskBehavior) :
    ∀ hosts : List String, (∀ h ∈ hosts, h ≠ "") →
      unreachableHosts (runResults cfg hosts beh) =
        hosts.filter (fun h => behUnreachable (beh h)) := by
  intro hosts
  induction hosts with
  | nil => intro _; rfl
  | cons h hs ih =>
      intro hne
      have hh : (h != "") = true :=
        bne_iff_ne.mpr (hne h (List.mem_cons_self h hs))
      have ih' := ih (fun x hx => hne x (List.mem_cons_of_mem _ hx))
      rw [runResults_cons, List.filter_cons]
      cases hb : beh h with
      | fault m =>
          rw [show runTask cfg h (.fault m) = .exn m from rfl,
            unreachableHosts_cons_exn, ih']
          simp [behUnreachable]
      | session sr =>
          cases sr with
          | ok out err code =>
              rw [show runTask cfg h (.session (.ok out err code)) =
                    .value (h, code == 0, false) from rfl,
                unreachableHosts_cons_value, ih']
              simp [behUnreachable]
          | connError e =>
              rw [show runTask cfg h (.session (.connError e)) =
                    .value (h, false, isUnreachableError e) from rfl,
                unreachableHosts_cons_value, ih']
              cases hu : isUnreachableError e <;>
                simp [behUnreachable, hu, hh]

/-! ## Claim theorems -/

/-- C1, counterexample: the claim says the status is `Unreachable` exactly
when the error text matches one of the fixed patterns case-insensitively.
The error text "connection refused" (lower case) matches the pattern set
case-insensitively, yet the code classifies it `Failed`, because line 140
tests `"Connection refused" in error_message` without lowering. -/
theorem c1_counterexample :
    specCiMatch ⟨false, "connection refused"⟩ = true ∧
    statusOf (execute_on_host ⟨"h", "/o/out", "/o/err", "ts", false, false⟩
        (.connError ⟨false, "connection refused"⟩)).outcome = .Failed := by
  exact ⟨by decide, by decide⟩

/-- C1 (amended): for a connection-level error the status is `Unreachable`
exactly when the raw error text contains `"Connection refused"`
case-sensitively, or the lowercased text contains one of the other five
patterns, or the exception is a timeout condition; any other
connection-level error is `Failed` (never `Success`), and a completed
session is classified by exit status alone: non-zero → `Failed`,
zero → `Success`. -/
theorem c1_classification_amended (p : HostParams) (e : ConnError)
    (out err : String) (code : Int) :
    (statusOf (execute_on_host p (.connError e)).outcome = .Unreachable ↔
      (strContains e.message "Connection refused" = true ∨
       strContains (strLower e.message) "timed out" = true ∨
       strContains (strLower e.message) "no route to host" = true ∨
       strContains (strLower e.message) "network unreachable" = true ∨
       strContains (strLower e.message) "could not resolve" = true ∨
       strContains (strLower e.message) "connection failed" = true ∨
       e.isTimeout = true)) ∧
    statusOf (execute_on_host p (.connError e)).outcome ≠ .Success ∧
    (code ≠ 0 → statusOf (execute_on_host p (.ok out err code)).outcome = .Failed) ∧
    (code = 0 → statusOf (execute_on_host p (.ok out err code)).outcome = .Success) := by
  have hstat : statusOf (execute_on_host p (.connError e)).outcome = .Unreachable ↔
      isUnreachableError e = true := by
    cases hu : isUnreachableError e <;> simp [execute_on_host, statusOf, hu]
  refine ⟨?_, ?_, ?_, ?_⟩
  · rw [hstat, isUnreachableError]
    simp only [Bool.or_eq_true]
    tauto
  · cases hu : isUnreachableError e <;> simp [execute_on_host, statusOf, hu]
  · intro hc
    have : (code == 0) = false := by simpa using hc
    simp [execute_on_host, statusOf, this]
  · intro hc
    subst hc
    simp [execute_on_host, statusOf]

/-- Witness for C1 (amended) at concrete inputs: a completed session with
exit status 3 is classified `Failed`. -/
theorem c1_classification_amended_witness :
    (3 : Int) ≠ 0 ∧
    statusOf (execute_on_host ⟨"h", "/o/out", "/o/err", "ts", false, false⟩
        (.ok "" "" 3)).outcome = .Failed :=
  ⟨by decide,
    (c1_classification_amended ⟨"h", "/o/out", "/o/err", "ts", false, false⟩
      ⟨false, "x"⟩ "" "" 3).2.2.1 (by decide)⟩

/-- C4: for every host, timestamp and directories, the derived stdout path
follows the four-row naming table, and the stderr path mirrors it with
`.err` when suffixes are on (src/ssh.py lines 106-120). -/
theorem c4_output_path_table (dOut dErr host ts : String) :
    stdoutFile dOut host ts false false = dOut ++ "/" ++ host ∧
    stdoutFile dOut host ts false true = dOut ++ "/" ++ host ++ ".out" ∧
    stdoutFile dOut host ts true false = dOut ++ "/" ++ host ++ "_" ++ ts ∧
    stdoutFile dOut host ts true true = dOut ++ "/" ++ host ++ "_" ++ ts ++ ".out" ∧
    stderrFile dErr host ts false false = dErr ++ "/" ++ host ∧
    stderrFile dErr host ts false true = dErr ++ "/" ++ host ++ ".err" ∧
    stderrFile dErr host ts true false = dErr ++ "/" ++ host ++ "_" ++ ts ∧
    stderrFile dErr host ts true true = dErr ++ "/" ++ host ++ "_" ++ ts ++ ".err" := by
  simp [stdoutFile, stderrFile, pathJoin, baseFileName, String.append_assoc]

/-- C7: on a connection-level error the session runner performs exactly one
file write — the stderr path receives the synthesized
`"Connection error: <text>"` message — and, whenever the stdout path
differs from the stderr path, the stdout path is not written at all
(src/ssh.py lines 135-167). -/
theorem c7_conn_error_writes (p : HostParams) (e : ConnError) :
    (execute_on_host p (.connError e)).writes =
      [(stderrFile p.stderrDir p.host p.timestamp p.useTimestamp p.useSuffixes,
        "Connection error: " ++ e.message)] ∧
    (stdoutFile p.stdoutDir p.host p.timestamp p.useTimestamp p.useSuffixes ≠
        stderrFile p.stderrDir p.host p.timestamp p.useTimestamp p.useSuffixes →
      ∀ c : String,
        (stdoutFile p.stdoutDir p.host p.timestamp p.useTimestamp p.useSuffixes, c) ∉
          (execute_on_host p (.connError e)).writes) := by
  refine ⟨rfl, fun hne c hmem => ?_⟩
  simp [execute_on_host] at hmem
  exact hne hmem.1

/-- Witness for C7 at concrete inputs with distinct directories. -/
theorem c7_conn_error_writes_witness :
    stdoutFile "/out" "h" "ts" false false ≠ stderrFile "/err" "h" "ts" false false ∧
    (stdoutFile "/out" "h" "ts" false false, "boom") ∉
      (execute_on_host ⟨"h", "/out", "/err", "ts", false, false⟩
        (.connError ⟨false, "x"⟩)).writes :=
  ⟨by decide,
    (c7_conn_error_writes ⟨"h", "/out", "/err", "ts", false, false⟩
      ⟨false, "x"⟩).2 (by decide) "boom"⟩

/-- C8: the loader strips each line, discards lines that are blank after
stripping and lines whose raw text starts with `#`, deduplicates while
preserving the order of first appearance, and reports the number of
duplicates removed; in particular `["a","b","a","c","# comment",""]`
loads as `["a","b","c"]` with reported duplicate count 1
(src/ssh.py lines 63-81). -/
theorem c8_loader :
    (read_hosts ["a", "b", "a", "c", "# comment", ""] = ["a", "b", "c"] ∧
      reportedDuplicates ["a", "b", "a", "c", "# comment", ""] = some 1) ∧
    (∀ lines : List String,
      processedLines lines =
        (lines.filter
          (fun l => strStrip l != "" && !strStartsWith l "#")).map strStrip) ∧
    (∀ lines : List String, (read_hosts lines).Nodup) ∧
    (∀ (lines : List String) (x : String),
      x ∈ read_hosts lines ↔ x ∈ processedLines lines) ∧
    (∀ (x : String) (xs : List String),
      dedupFromKeys [] (x :: xs) =
        x :: dedupFromKeys [] (xs.filter (fun y => y != x))) :=
  ⟨⟨by decide, by decide⟩, fun _ => rfl,
    fun lines => nodup_dedupFromKeys (processedLines lines) [],
    mem_read_hosts, dedupFromKeys_first⟩

/-- C2: for every target sequence, the run yields exactly one gather entry
per submitted target (internal faults included, converted to an entry by
`return_exceptions=True`), the three counts sum to the number of targets,
and every entry falls in exactly one of the three classifications
(src/ssh.py lines 186-190 and 225-264). -/
theorem c2_outcome_completeness (cfg : RunConfig) (lines : List String)
    (beh : String → TaskBehavior) :
    (runResults cfg (read_hosts lines) beh).length = (read_hosts lines).length ∧
    successfulCount (runResults cfg (read_hosts lines) beh) +
        failedCount (runResults cfg (read_hosts lines) beh) +
        unreachableCount (runResults cfg (read_hosts lines) beh) =
      (read_hosts lines).length ∧
    ∀ r ∈ runResults cfg (read_hosts lines) beh,
      (countsAsSuccess r).toNat + (countsAsFailed r).toNat +
        (countsAsUnreachable r).toNat = 1 := by
  have hok := runResults_entry_ok cfg (read_hosts lines) beh
    (fun h hh => mem_read_hosts_ne_empty hh)
  refine ⟨List.length_map _ _, ?_, fun r hr => exactly_one_class (hok r hr)⟩
  rw [counts_sum _ hok, runResults, List.length_map]

/-- Witness for C2 at a concrete run with one successful host and one
internally faulting task. -/
theorem c2_outcome_completeness_witness :
    TaskResult.exn "boom" ∈
      runResults ⟨"/out", "/err", "ts", false, false⟩ (read_hosts ["a", "b"])
        (fun h => if h = "a" then .session (.ok "" "" 0) else .fault "boom") ∧
    (countsAsSuccess (TaskResult.exn "boom")).toNat +
        (countsAsFailed (TaskResult.exn "boom")).toNat +
        (countsAsUnreachable (TaskResult.exn "boom")).toNat = 1 ∧
    successfulCount (runResults ⟨"/out", "/err", "ts", false, false⟩
          (read_hosts ["a", "b"])
          (fun h => if h = "a" then .session (.ok "" "" 0) else .fault "boom")) +
        failedCount (runResults ⟨"/out", "/err", "ts", false, false⟩
          (read_hosts ["a", "b"])
          (fun h => if h = "a" then .session (.ok "" "" 0) else .fault "boom")) +
        unreachableCount (runResults ⟨"/out", "/err", "ts", false, false⟩
          (read_hosts ["a", "b"])
          (fun h => if h = "a" then .session (.ok "" "" 0) else .fault "boom")) =
      (read_hosts ["a", "b"]).length :=
  ⟨by decide,
    (c2_outcome_completeness ⟨"/out", "/err", "ts", false, false⟩ ["a", "b"]
      (fun h => if h = "a" then .session (.ok "" "" 0) else .fault "boom")).2.2
      (TaskResult.exn "boom") (by decide),
    (c2_outcome_completeness ⟨"/out", "/err", "ts", false, false⟩ ["a", "b"]
      (fun h => if h = "a" then .session (.ok "" "" 0) else .fault "boom")).2.1⟩

/-- C3: with parallelism N ≥ 1, in every state reachable by the scheduler's
semaphore discipline, at most N tasks are inside their session
(src/ssh.py lines 179-190). -/
theorem c3_concurrency_bound (N n : Nat) (s : SchedState) (hN : 1 ≤ N)
    (h : Relation.ReflTransGen SchedStep (initState N n) s) :
    runningCount s ≤ N := by
  have := sched_invariant N n s h
  omega

/-- Witness for C3: with parallelism 1 and two tasks, the state after one
acquisition is reachable and respects the bound. -/
theorem c3_concurrency_bound_witness :
    (1 ≤ 1 ∧
      Relation.ReflTransGen SchedStep (initState 1 2)
        ⟨0, [.running, .pending], []⟩) ∧
    runningCount ⟨0, [.running, .pending], []⟩ ≤ 1 := by
  have hstep : Relation.ReflTransGen SchedStep (initState 1 2)
      ⟨0, [.running, .pending], []⟩ :=
    Relation.ReflTransGen.single
      (SchedStep.acquire (initState 1 2) 0 (by decide) (by decide))
  exact ⟨⟨le_refl 1, hstep⟩, c3_concurrency_bound 1 2 _ (le_refl 1) hstep⟩

/-- Behaviour of `persistUnreachable` when `outdir` is configured: the
artifact is produced exactly when the unreachable list is non-empty. -/
theorem persistUnreachable_some (d : String) (rs : List TaskResult) :
    (unreachableHosts rs ≠ [] →
      persistUnreachable (some d) rs =
        .ok (some (pathJoin d "unreachable.hosts", unreachableFileContent rs))) ∧
    (unreachableHosts rs = [] → persistUnreachable (some d) rs = .ok none) := by
  constructor
  · intro hne
    cases hl : unreachableHosts rs with
    | nil => exact absurd hl hne
    | cons a l =>
        simp only [persistUnreachable, hl, List.isEmpty_cons,
          Bool.false_eq_true, if_false]
  · intro hemp
    simp [persistUnreachable, hemp]

/-- C5, counterexample: the claim says the artifact lists the unreachable
hosts in the order their sessions completed.  A reachable schedule
completes host "b" (task 1) before host "a" (task 0), yet the file
content follows gather (submission) order "a", "b", because
`asyncio.gather` returns results in task order regardless of completion
order. -/
theorem c5_counterexample :
    Relation.ReflTransGen SchedStep (initState 2 2)
      ⟨2, [.done, .done], [1, 0]⟩ ∧
    completionOrder (read_hosts ["a", "b"]) ⟨2, [.done, .done], [1, 0]⟩ =
      ["b", "a"] ∧
    persistUnreachable (some "/o")
        (runResults ⟨"/o/out", "/o/err", "ts", false, false⟩
          (read_hosts ["a", "b"])
          (fun _ => .session (.connError ⟨false, "Connection refused"⟩))) =
      .ok (some ("/o/unreachable.hosts", "a\nb\n")) ∧
    ("a\nb\n" : String) ≠
      String.join ((completionOrder (read_hosts ["a", "b"])
          ⟨2, [.done, .done], [1, 0]⟩).map (fun h => h ++ "\n")) := by
  refine ⟨?_, by decide, by decide, by decide⟩
  have s1 : SchedStep (initState 2 2) ⟨1, [.running, .pending], []⟩ :=
    SchedStep.acquire (initState 2 2) 0 (by decide) (by decide)
  have s2 : SchedStep ⟨1, [.running, .pending], []⟩
      ⟨0, [.running, .running], []⟩ :=
    SchedStep.acquire ⟨1, [.running, .pending], []⟩ 1 (by decide) (by decide)
  have s3 : SchedStep ⟨0, [.running, .running], []⟩
      ⟨1, [.running, .done], [1]⟩ :=
    SchedStep.release ⟨0, [.running, .running], []⟩ 1 (by decide)
  have s4 : SchedStep ⟨1, [.running, .done], [1]⟩
      ⟨2, [.done, .done], [1, 0]⟩ :=
    SchedStep.release ⟨1, [.running, .done], [1]⟩ 0 (by decide)
  exact Relation.ReflTransGen.tail
    (Relation.ReflTransGen.tail
      (Relation.ReflTransGen.tail (Relation.ReflTransGen.single s1) s2) s3) s4

/-- C5 (amended): when `outdir` is configured, `unreachable.hosts` is
produced exactly when at least one outcome is Unreachable, and it contains
exactly the unreachable hosts, one per line, in submission (target-list)
order — the order `asyncio.gather` returns results — not completion
order. -/
theorem c5_unreachable_artifact_amended (d : String) (cfg : RunConfig)
    (lines : List String) (beh : String → TaskBehavior) :
    unreachableHosts (runResults cfg (read_hosts lines) beh) =
      (read_hosts lines).filter (fun h => behUnreachable (beh h)) ∧
    (unreachableHosts (runResults cfg (read_hosts lines) beh) ≠ [] →
      persistUnreachable (some d) (runResults cfg (read_hosts lines) beh) =
        .ok (some (pathJoin d "unreachable.hosts",
          unreachableFileContent (runResults cfg (read_hosts lines) beh)))) ∧
    (unreachableHosts (runResults cfg (read_hosts lines) beh) = [] →
      persistUnreachable (some d) (runResults cfg (read_hosts lines) beh) =
        .ok none) :=
  ⟨unreachableHosts_runResults cfg beh (read_hosts lines)
      (fun _ hh => mem_read_hosts_ne_empty hh),
    (persistUnreachable_some d _).1,
    (persistUnreachable_some d _).2⟩

/-- Witness for C5 (amended) at a concrete run with two unreachable
hosts: the artifact is written in submission order. -/
theorem c5_unreachable_artifact_amended_witness :
    unreachableHosts (runResults ⟨"/o/out", "/o/err", "ts", false, false⟩
        (read_hosts ["a", "b"])
        (fun _ => .session (.connError ⟨false, "Connection refused"⟩))) ≠ [] ∧
    persistUnreachable (some "/o")
        (runResults ⟨"/o/out", "/o/err", "ts", false, false⟩
          (read_hosts ["a", "b"])
          (fun _ => .session (.connError ⟨false, "Connection refused"⟩))) =
      .ok (some (pathJoin "/o" "unreachable.hosts",
        unreachableFileContent (runResults ⟨"/o/out", "/o/err", "ts", false, false⟩
          (read_hosts ["a", "b"])
          (fun _ => .session (.connError ⟨false, "Connection refused"⟩))))) :=
  ⟨by decide,
    (c5_unreachable_artifact_amended "/o" ⟨"/o/out", "/o/err", "ts", false, false⟩
      ["a", "b"]
      (fun _ => .session (.connError ⟨false, "Connection refused"⟩))).2.1
      (by decide)⟩

/-- C6 (code bug): with `--outdir /o`, the artifact is persisted to
`/o/unreachable.hosts` (line 238 joins onto `args.outdir`), but the
summary at line 272 prints the absolute path of
`<stdout_dir>/unreachable.hosts`, which resolves to
`/o/out/unreachable.hosts` — a different path than the one written. -/
theorem c6_summary_path_mismatch :
    resolvedStdoutDir (some "/o") none = some "/o/out" ∧
    persistUnreachable (some "/o")
        (runResults ⟨"/o/out", "/o/err", "ts", false, false⟩ (read_hosts ["h"])
          (fun _ => .session (.connError ⟨false, "Connection refused"⟩))) =
      .ok (some ("/o/unreachable.hosts", "h\n")) ∧
    summaryUnreachablePath "/cwd" "/o/out" = "/o/out/unreachable.hosts" ∧
    ("/o/unreachable.hosts" : String) ≠ "/o/out/unreachable.hosts" :=
  ⟨rfl, by decide, by decide, by decide⟩

/-- C9, counterexample: the claim says the exit code is zero whenever the
hostfile exists and yields at least one target.  With only
`--stdout-dir`/`--stderr-dir` configured (no `--outdir`) and one
unreachable host, the run terminates with an uncaught `TypeError`
(non-zero exit) even though the hostfile was present and non-empty. -/
theorem c9_counterexample :
    read_hosts ["h"] = ["h"] ∧
    mainExit (some ["h"]) none ⟨"/out", "/err", "ts", false, false⟩
        (fun _ => .session (.connError ⟨false, "Connection refused"⟩)) ≠
      .exited 0 ∧
    mainExit (some ["h"]) none ⟨"/out", "/err", "ts", false, false⟩
        (fun _ => .session (.connError ⟨false, "Connection refused"⟩)) =
      .crashed "TypeError: join of None outdir" :=
  ⟨by decide, by decide, by decide⟩

/-- C9 (amended): the process terminates with exit code zero exactly when
the hostfile exists, yields at least one target, and either `outdir` is
configured or no host is classified Unreachable; a missing hostfile or an
empty target list exits non-zero, and a run without `outdir` that needs to
persist unreachable hosts dies on an uncaught `TypeError` (also
non-zero).  Per-host Failed/Unreachable outcomes otherwise never
influence the exit code. -/
theorem c9_exit_codes_amended (hostfile : Option (List String))
    (outdir : Option String) (cfg : RunConfig) (beh : String → TaskBehavior) :
    mainExit hostfile outdir cfg beh = .exited 0 ↔
      ∃ lines, hostfile = some lines ∧ read_hosts lines ≠ [] ∧
        (outdir ≠ none ∨
          unreachableHosts (runResults cfg (read_hosts lines) beh) = []) := by
  cases hostfile with
  | none => simp [mainExit]
  | some lines =>
      by_cases hemp : (read_hosts lines).isEmpty
      · have hnil : read_hosts lines = [] := by
          cases hl : read_hosts lines with
          | nil => rfl
          | cons a l => rw [hl] at hemp; exact absurd hemp (by simp)
        simp [mainExit, hemp, hnil]
      · have hne : read_hosts lines ≠ [] := by
          intro hl
          rw [hl] at hemp
          exact hemp rfl
        cases outdir with
        | some d =>
            by_cases hu : unreachableHosts (runResults cfg (read_hosts lines) beh) = []
            · simp [mainExit, hemp, (persistUnreachable_some d _).2 hu, hne]
            · simp [mainExit, hemp, (persistUnreachable_some d _).1 hu, hne]
        | none =>
            by_cases hu : unreachableHosts (runResults cfg (read_hosts lines) beh) = []
            · have : persistUnreachable none
                  (runResults cfg (read_hosts lines) beh) = .ok none := by
                simp [persistUnreachable, hu]
              simp [mainExit, hemp, this, hne, hu]
            · have : persistUnreachable none
                  (runResults cfg (read_hosts lines) beh) =
                    .error "TypeError: join of None outdir" := by
                cases hl : unreachableHosts (runResults cfg (read_hosts lines) beh) with
                | nil => exact absurd hl hu
                | cons a l =>
                    simp only [persistUnreachable, hl, List.isEmpty_cons,
                      Bool.false_eq_true, if_false]
              simp [mainExit, hemp, this, hne, hu]

/-- Witness for C9 (amended): a run with `outdir` configured and a
non-empty hostfile exits zero even when the only host fails. -/
theorem c9_exit_codes_amended_witness :
    mainExit (some ["h"]) (some "/o") ⟨"/out", "/err", "ts", false, false⟩
      (fun _ => .session (.ok "" "" 7)) = .exited 0 :=
  (c9_exit_codes_amended (some ["h"]) (some "/o")
      ⟨"/out", "/err", "ts", false, false⟩
      (fun _ => .session (.ok "" "" 7))).mpr
    ⟨["h"], rfl, by decide, Or.inl (by decide)⟩

/-- C10: the CLI accepts a configuration with no `outdir` when both
`--stdout-dir` and `--stderr-dir` are given (lines 44-46), and in any such
run in which at least one host is unreachable, persisting the artifact
joins the filename onto the absent `outdir` and raises instead of
producing the file (lines 236-241). -/
theorem c10_missing_outdir_crash (sd se : String) (rs : List TaskResult)
    (hne : unreachableHosts rs ≠ []) :
    dirsValid none (some sd) (some se) = true ∧
    resolvedStdoutDir none (some sd) = some sd ∧
    resolvedStderrDir none (some se) = some se ∧
    persistUnreachable none rs = .error "TypeError: join of None outdir" := by
  refine ⟨rfl, rfl, rfl, ?_⟩
  cases hl : unreachableHosts rs with
  | nil => exact absurd hl hne
  | cons a l =>
      simp only [persistUnreachable, hl, List.isEmpty_cons,
        Bool.false_eq_true, if_false]

/-- Witness for C10 at a concrete unreachable result list. -/
theorem c10_missing_outdir_crash_witness :
    unreachableHosts [TaskResult.value ("h", false, true)] ≠ [] ∧
    persistUnreachable none [TaskResult.value ("h", false, true)] =
      .error "TypeError: join of None outdir" :=
  ⟨by decide,
    (c10_missing_outdir_crash "/out" "/err"
      [TaskResult.value ("h", false, true)] (by decide)).2.2.2⟩

end WideSsh
